import Mathlib

/-!
Shallow embedding of the `vk_scripts` repository (Python) in Lean 4.

Modelled source files:
- `track_status.py` (live status tracker: formatting helpers, `print_status`,
  `print_status_update`, `parse_timeout`, `loop_update_status`, `__main__`
  exception handling);
- `vk/user.py` (the `User` mapping class with per-field parsers, equality and
  hashing by UID, `get_screen_name`);
- `vk/utils/tracking/utils/online_streak_duration.py` (`OutputWriterJSON`,
  `PlotBuilder.add_user_duration`).

Python dynamic values are embedded as the inductive `PyValue`; fallible Python
code (exceptions) is embedded via `Except PyErr`.  The live tracker's infinite
polling loop is embedded on a finite list of acquisitions (one list of users
per poll); the notification sink is modelled by recording, for each invocation
of `print_status` / `print_status_update`, the user passed and the transition
kind the call reports.
-/

namespace VkScripts

/-- Python exception kinds raised by the modelled code. -/
inductive PyErr where
  | keyError
  | valueError
  | typeError
  | indexError
  | nameError (name : String)
  | argumentTypeError (msg : String)
  deriving DecidableEq, Repr

deriving instance DecidableEq for Except

/-- Stand-in for `vk.last_seen.LastSeen` (its module is not under `src/`; the
claims never inspect it, so only a payload carrying a timestamp is kept). -/
structure LastSeen where
  time : Int
  deriving DecidableEq, Repr

/-- A dynamically typed Python value, restricted to the types that flow through
the modelled code: `int`, `str`, `bool`, `None` and `LastSeen` objects. -/
inductive PyValue where
  | int (n : Int)
  | str (s : String)
  | bool (b : Bool)
  | none
  | lastSeen (l : LastSeen)
  deriving DecidableEq, Repr

namespace PyValue

/-- Python truthiness (`bool(x)`): zero, empty string and `None` are falsy;
any object such as a `LastSeen` instance is truthy. -/
def truthy : PyValue → Bool
  | .int n => n != 0
  | .str s => s != ""
  | .bool b => b
  | .none => false
  | .lastSeen _ => true

/-- Python `==` on values: `bool` is an `int` subclass, so `True == 1`;
values of unrelated types compare unequal. -/
def pyEq : PyValue → PyValue → Bool
  | .int a, .int b => a == b
  | .int a, .bool b => a == (if b then 1 else 0)
  | .bool a, .int b => (if a then (1 : Int) else 0) == b
  | .bool a, .bool b => a == b
  | .str a, .str b => a == b
  | .none, .none => true
  | .lastSeen a, .lastSeen b => a == b
  | _, _ => false

/-- Python `str(x)` for the embedded value types (`str(True) = "True"`). -/
def pyStr : PyValue → String
  | .int n => toString n
  | .str s => s
  | .bool b => if b then "True" else "False"
  | .none => "None"
  | .lastSeen l => "LastSeen(" ++ toString l.time ++ ")"

end PyValue

/-- Python `int(x)` on a decimal string: optional sign followed by digits
(whitespace and underscore handling is not needed by the claims). -/
def pyIntOfString (s : String) : Option Int :=
  let core (ds : List Char) : Option Nat :=
    if ds = [] then Option.none
    else if ds.all Char.isDigit then
      Option.some (ds.foldl (fun acc c => acc * 10 + (c.toNat - 48)) 0)
    else Option.none
  match s.toList with
  | '-' :: rest => (core rest).map (fun n => -(n : Int))
  | '+' :: rest => (core rest).map (fun n => (n : Int))
  | ds => (core ds).map (fun n => (n : Int))

/-- Python `int(x)` on a dynamic value: identity on `int`, `0`/`1` on `bool`,
decimal parse on `str` (raising `ValueError` on failure), `TypeError` on the
rest. -/
def pyIntCoerce : PyValue → Except PyErr Int
  | .int n => .ok n
  | .bool b => .ok (if b then 1 else 0)
  | .str s =>
    match pyIntOfString s with
    | Option.some n => .ok n
    | Option.none => .error .valueError
  | .none => .error .typeError
  | .lastSeen _ => .error .typeError

/-- CPython `hash` on an `int`: reduction modulo `2^61 - 1`, with `-1`
mapped to `-2`. -/
def pyHashInt (n : Int) : Int :=
  let m : Int := 2 ^ 61 - 1
  let h : Int := if 0 ≤ n then n % m else -((-n) % m)
  if h = -1 then -2 else h

/-- A deterministic stand-in for CPython string hashing (only within-run
determinism — equal strings hash equal — is relied on by the code). -/
def pyHashStr (s : String) : Int :=
  s.toList.foldl (fun acc c => (acc * 31 + (c.toNat : Int)) % (2 ^ 61 - 1)) 7

/-- Python `hash(x)` for the embedded value types; numerically equal `int`
and `bool` values hash equal, as in CPython. -/
def pyHashValue : PyValue → Int
  | .int n => pyHashInt n
  | .bool b => pyHashInt (if b then 1 else 0)
  | .str s => pyHashStr s
  | .none => 0
  | .lastSeen l => pyHashInt l.time

/-- `vk.user.UserField`: the enumeration of `User` dictionary keys. -/
inductive UserField where
  | uid
  | first_name
  | last_name
  | screen_name
  | online
  | last_seen
  deriving DecidableEq, Repr

/-- `UserField.__str__`: the enum's string value. -/
def UserField.toStr : UserField → String
  | .uid => "uid"
  | .first_name => "first_name"
  | .last_name => "last_name"
  | .screen_name => "screen_name"
  | .online => "online"
  | .last_seen => "last_seen"

/-- `vk.user._parse_online_flag`: a string must be exactly `str(True)` or
`str(False)` (else `ValueError`); any non-string is coerced with `bool`. -/
def _parse_online_flag (x : PyValue) : Except PyErr PyValue :=
  match x with
  | .str s =>
    if s = "True" then .ok (.bool true)
    else if s = "False" then .ok (.bool false)
    else .error .valueError
  | _ => .ok (.bool x.truthy)

/-- `vk.user._parse_last_seen`: a `LastSeen` instance passes through; the
`Mapping` branch (`LastSeen.from_api_response`) is outside the embedded value
types, so everything else raises `TypeError`. -/
def _parse_last_seen (x : PyValue) : Except PyErr PyValue :=
  match x with
  | .lastSeen l => .ok (.lastSeen l)
  | _ => .error .typeError

/-- `vk.user.User`: a hashable mutable mapping from fields to values, backed
by an `OrderedDict` (embedded as an association list preserving insertion
order). -/
structure User where
  fields : List (UserField × PyValue)
  deriving DecidableEq, Repr

/-- Dictionary lookup in an `OrderedDict` backing list. -/
def lookupAssoc : List (UserField × PyValue) → UserField → Option PyValue
  | [], _ => Option.none
  | (g, w) :: rest, f =>
    if g = f then Option.some w else lookupAssoc rest f

namespace User

/-- Dictionary lookup in the backing `OrderedDict`. -/
def lookup (u : User) (f : UserField) : Option PyValue :=
  lookupAssoc u.fields f

/-- `OrderedDict.__setitem__` on the backing list: update in place if the key
exists, append otherwise. -/
def setAssoc : List (UserField × PyValue) → UserField → PyValue → List (UserField × PyValue)
  | [], f, v => [(f, v)]
  | (g, w) :: rest, f, v =>
    if g = f then (g, v) :: rest else (g, w) :: setAssoc rest f v

/-- `OrderedDict.__delitem__` on the backing list. -/
def delAssoc : List (UserField × PyValue) → UserField → List (UserField × PyValue)
  | [], _ => []
  | (g, w) :: rest, f =>
    if g = f then rest else (g, w) :: delAssoc rest f

/-- `User.parse`: dispatch to the per-field parser (`int` for UID,
`_parse_online_flag` for ONLINE, `_parse_last_seen` for LAST_SEEN, `str`
for every other field). -/
def parse (field : UserField) (value : PyValue) : Except PyErr PyValue :=
  match field with
  | .uid => (pyIntCoerce value).map PyValue.int
  | .online => _parse_online_flag value
  | .last_seen => _parse_last_seen value
  | _ => .ok (.str value.pyStr)

/-- `User.__getitem__`: raises `KeyError` when the field is absent. -/
def getitem (u : User) (f : UserField) : Except PyErr PyValue :=
  match u.lookup f with
  | Option.some v => .ok v
  | Option.none => .error .keyError

/-- `User.__setitem__`: every assignment goes through `User.parse`. -/
def setitem (u : User) (f : UserField) (v : PyValue) : Except PyErr User := do
  let parsed ← parse f v
  pure ⟨setAssoc u.fields f parsed⟩

/-- `User.__delitem__`: raises `KeyError` when the field is absent. -/
def delitem (u : User) (f : UserField) : Except PyErr User :=
  match u.lookup f with
  | Option.some _ => .ok ⟨delAssoc u.fields f⟩
  | Option.none => .error .keyError

/-- `User.get_uid`. -/
def get_uid (u : User) : Except PyErr PyValue :=
  u.getitem .uid

/-- `User.__eq__`: equality is decided solely by comparing UIDs. -/
def eqE (u other : User) : Except PyErr Bool := do
  let a ← u.get_uid
  let b ← other.get_uid
  pure (a.pyEq b)

/-- `User.__hash__`: `hash(self.get_uid())`. -/
def hashE (u : User) : Except PyErr Int := do
  let a ← u.get_uid
  pure (pyHashValue a)

/-- `User.has_screen_name`: key membership test. -/
def has_screen_name (u : User) : Bool :=
  (u.lookup .screen_name).isSome

/-- `User.get_screen_name`: the stored field when present, otherwise
`'id' + str(uid)`. -/
def get_screen_name (u : User) : Except PyErr PyValue :=
  if u.has_screen_name then u.getitem .screen_name
  else do
    let a ← u.get_uid
    pure (.str ("id" ++ a.pyStr))

/-- `User.has_last_name`: key present and value truthy. -/
def has_last_name (u : User) : Bool :=
  match u.lookup .last_name with
  | Option.some v => v.truthy
  | Option.none => false

/-- `User.get_first_name`. -/
def get_first_name (u : User) : Except PyErr PyValue :=
  u.getitem .first_name

/-- `User.get_last_name`. -/
def get_last_name (u : User) : Except PyErr PyValue :=
  u.getitem .last_name

/-- `User.get_last_seen`. -/
def get_last_seen (u : User) : Except PyErr PyValue :=
  u.getitem .last_seen

/-- `User.is_online`: returns the stored ONLINE value. -/
def is_online (u : User) : Except PyErr PyValue :=
  u.getitem .online

end User

/-! ## `track_status.py` — formatting and logging helpers -/

/-- The global names defined in the `track_status.py` module (its `def`s plus
the names imported via `from api import *` that the module body uses); a call
to any other name raises `NameError` at run time. -/
def trackStatusGlobals : List String :=
  ["format_user", "format_user_is_online", "format_user_is_offline",
   "format_user_last_seen", "format_user_went_online",
   "format_user_went_offline", "user_is_online", "user_is_offline",
   "user_went_online", "user_went_offline", "print_status",
   "print_status_update", "parse_timeout", "DEFAULT_TIMEOUT",
   "loop_update_status", "User", "API", "Language"]

/-- CPython resolution of a global name at call time: `NameError` when the
name is not bound in the module. -/
def resolveGlobal (name : String) : Except PyErr Unit :=
  if name ∈ trackStatusGlobals then .ok () else .error (.nameError name)

/-- `track_status.format_user`: `"{last} {first}"` when a truthy last name is
stored, else `"{first}"`. -/
def format_user (user : User) : Except PyErr String :=
  if user.has_last_name then do
    let ln ← user.get_last_name
    let fn ← user.get_first_name
    pure (ln.pyStr ++ " " ++ fn.pyStr)
  else do
    let fn ← user.get_first_name
    pure fn.pyStr

/-- `track_status.format_user_is_online`. -/
def format_user_is_online (user : User) : Except PyErr String := do
  let s ← format_user user
  pure (s ++ " is ONLINE")

/-- `track_status.format_user_is_offline`. -/
def format_user_is_offline (user : User) : Except PyErr String := do
  let s ← format_user user
  pure (s ++ " is OFFLINE")

/-- `track_status.format_user_last_seen`. -/
def format_user_last_seen (user : User) : Except PyErr String := do
  let s ← format_user user
  let ls ← user.get_last_seen
  pure (s ++ " was last seen at " ++ ls.pyStr)

/-- `track_status.format_user_went_online`. -/
def format_user_went_online (user : User) : Except PyErr String := do
  let s ← format_user user
  pure (s ++ " went ONLINE")

/-- `track_status.format_user_went_offline`. -/
def format_user_went_offline (user : User) : Except PyErr String := do
  let s ← format_user user
  pure (s ++ " went OFFLINE")

/-- `track_status.user_is_online`: logs one line. -/
def user_is_online (user : User) : Except PyErr (List String) := do
  let s ← format_user_is_online user
  pure [s]

/-- `track_status.user_is_offline`: logs two lines (state and last-seen). -/
def user_is_offline (user : User) : Except PyErr (List String) := do
  let s ← format_user_is_offline user
  let t ← format_user_last_seen user
  pure [s, t]

/-- `track_status.user_went_online`: logs one line. -/
def user_went_online (user : User) : Except PyErr (List String) := do
  let s ← format_user_went_online user
  pure [s]

/-- `track_status.user_went_offline`: its body reads
`logging.info(format_usre_went_offline(user))`; the name
`format_usre_went_offline` (note the transposed letters) is not bound
anywhere in the module, so CPython raises `NameError` before any formatting
happens.  The fallthrough models what the line would log if the name did
resolve to the similarly named `format_user_went_offline`. -/
def user_went_offline (user : User) : Except PyErr (List String) := do
  let _ ← resolveGlobal "format_usre_went_offline"
  let s ← format_user_went_offline user
  pure [s]

/-- `track_status.print_status`: branch on the user's online flag
(truthiness of the stored ONLINE value). -/
def print_status (user : User) : Except PyErr (List String) := do
  let v ← user.is_online
  if v.truthy then user_is_online user else user_is_offline user

/-- `track_status.print_status_update`: branch on the user's online flag. -/
def print_status_update (user : User) : Except PyErr (List String) := do
  let v ← user.is_online
  if v.truthy then user_went_online user else user_went_offline user

/-- `track_status.parse_timeout`: `int(source)` (propagating `ValueError`),
then `ArgumentTypeError` when the value is below 1. -/
def parse_timeout (source : String) : Except PyErr Int := do
  let timeout ←
    match pyIntOfString source with
    | Option.some n => Except.ok n
    | Option.none => Except.error PyErr.valueError
  if timeout < 1 then
    .error (.argumentTypeError
      "please specify a positive number of seconds as refresh timeout")
  else
    pure timeout

/-- `track_status.DEFAULT_TIMEOUT`. -/
def DEFAULT_TIMEOUT : Int := 5

/-- The `default=DEFAULT_TIMEOUT` of the `-t`/`--timeout` argparse option:
the poll interval used when the flag is omitted. -/
def timeoutArgDefault : Int := DEFAULT_TIMEOUT

/-! ## `track_status.py` — the live tracking loop

`loop_update_status` polls forever; the embedding runs it over a finite list
of acquisitions (each acquisition is the list of users one `api.users_get`
call returned).  A notification is one invocation of the sink
(`print_status` on the first acquisition, `print_status_update` later),
recorded as the user passed together with the transition kind the call
reports. -/

/-- The kind of notification a sink invocation reports. -/
inductive TransitionKind where
  | initialOnline
  | initialOffline
  | wentOnline
  | wentOffline
  deriving DecidableEq, Repr

/-- One sink invocation: the snapshot passed and the reported kind. -/
structure Event where
  user : User
  kind : TransitionKind
  deriving DecidableEq, Repr

/-- The first-acquisition loop `for user in users: print_status(user)`: one
sink invocation (`print_status` call) per user.  Each invocation is recorded
as an event whose kind mirrors the branch `print_status` takes on the user's
online flag; the call itself runs, so its exceptions (missing fields) abort
the loop exactly as in Python. -/
def firstCycle : List User → Except PyErr (List Event)
  | [] => .ok []
  | u :: rest => do
    let v ← u.is_online
    let _logs ← print_status u
    let evs ← firstCycle rest
    pure (⟨u, if v.truthy then .initialOnline else .initialOffline⟩ :: evs)

/-- List indexing `xs[i]`, raising `IndexError` out of range. -/
def pyIndex (xs : List User) (i : Nat) : Except PyErr User :=
  match xs.get? i with
  | Option.some u => .ok u
  | Option.none => .error .indexError

/-- The body of one polling iteration over the index list
(`for i in range(len(updated_users))`):

    if users[i].is_online() != updated_users[i].is_online():
        users[i] = updated_users[i]
        print_status_update(updated_users[i])

Each `print_status_update` invocation is recorded as an event whose kind
mirrors the branch the call takes; the call itself runs, so its exception
(in particular the `NameError` of `user_went_offline`) aborts the loop
exactly as in Python.  Returns the mutated `users` list and the sink
invocations made, in order. -/
def updateLoop (stored updated : List User) : List Nat →
    Except PyErr (List User × List Event)
  | [] => .ok (stored, [])
  | i :: is => do
    let su ← pyIndex stored i
    let uu ← pyIndex updated i
    let sv ← su.is_online
    let uv ← uu.is_online
    if sv.pyEq uv then
      updateLoop stored updated is
    else do
      let _logs ← print_status_update uu
      let (st, evs) ← updateLoop (stored.set i uu) updated is
      pure (st, ⟨uu, if uv.truthy then .wentOnline else .wentOffline⟩ :: evs)

/-- One full subsequent-acquisition cycle over the freshly acquired list. -/
def updateCycle (stored updated : List User) :
    Except PyErr (List User × List Event) :=
  updateLoop stored updated (List.range updated.length)

/-- The stored ONLINE value of a user, read totally (meaningful when the
field is present). -/
def onlineVal (u : User) : PyValue :=
  (u.lookup .online).getD .none

/-- Specification of the stored list after one polling iteration: at each
visited index whose online flags differ, the freshly acquired user replaces
the stored one. -/
def storedAfterLoop (stored updated : List User) : List Nat → List User
  | [] => stored
  | i :: is =>
    match stored.get? i, updated.get? i with
    | Option.some su, Option.some uu =>
      if (onlineVal su).pyEq (onlineVal uu) then storedAfterLoop stored updated is
      else storedAfterLoop (stored.set i uu) updated is
    | _, _ => stored

/-- Specification of the sink invocations of one polling iteration: exactly
one event per visited index at which the stored online flag differs from the
freshly acquired one, in index order, carrying the freshly acquired user. -/
def cycleEventsOn (stored updated : List User) (js : List Nat) : List Event :=
  js.filterMap (fun i =>
    match stored.get? i, updated.get? i with
    | Option.some su, Option.some uu =>
      if (onlineVal su).pyEq (onlineVal uu) then Option.none
      else Option.some ⟨uu, if (onlineVal uu).truthy then .wentOnline
                            else .wentOffline⟩
    | _, _ => Option.none)

/-- The sink invocations of one full subsequent-acquisition cycle. -/
def cycleEvents (stored updated : List User) : List Event :=
  cycleEventsOn stored updated (List.range updated.length)

/-- The polling loop over a finite list of subsequent acquisitions. -/
def runUpdates (stored : List User) :
    List (List User) → Except PyErr (List User × List Event)
  | [] => .ok (stored, [])
  | acq :: rest => do
    let (st, evs) ← updateCycle stored acq
    let (st2, evs2) ← runUpdates st rest
    pure (st2, evs ++ evs2)

/-- `track_status.loop_update_status` on a finite trace: the first
acquisition feeds `print_status` per user, every later acquisition runs the
positional comparison loop; the result is every sink invocation in order. -/
def loop_update_status (first : List User) (rest : List (List User)) :
    Except PyErr (List Event) := do
  let evs0 ← firstCycle first
  let (_, evs) ← runUpdates first rest
  pure (evs0 ++ evs)

/-! ## `track_status.py` — `__main__` exception handling -/

/-- How the run loop of `loop_update_status` can terminate (it never returns
normally: `while True`). -/
inductive LoopExit where
  | keyboardInterrupt
  | exception (msg : String)
  deriving DecidableEq, Repr

/-- The `__main__` `try`/`except` around `loop_update_status`:
`KeyboardInterrupt` is swallowed (`pass`) and the script falls off the end
(exit status 0); any other `Exception` is logged and `sys.exit(1)` runs. -/
def mainExitCode : LoopExit → Nat
  | .keyboardInterrupt => 0
  | .exception _ => 1

/-! ## `vk/utils/tracking/utils/online_streak_duration.py` -/

/-- Two-digit zero padding used inside `str(timedelta)`. -/
def pad2 (n : Nat) : String :=
  if n < 10 then "0" ++ toString n else toString n

/-- Python `str(datetime.timedelta(seconds=secs))` for a whole, non-negative
number of seconds: `H:MM:SS`, prefixed with `D day[s], ` past 24 hours. -/
def strTimedelta (secs : Nat) : String :=
  let days := secs / 86400
  let rem := secs % 86400
  let hms := toString (rem / 3600) ++ ":" ++ pad2 (rem % 3600 / 60) ++ ":"
      ++ pad2 (rem % 60)
  if days = 0 then hms
  else if days = 1 then "1 day, " ++ hms
  else toString days ++ " days, " ++ hms

/-- `online_streak_duration._USER_FIELDS`: the identity fields every output
record carries, in order. -/
def _USER_FIELDS : List UserField :=
  [.uid, .first_name, .last_name, .screen_name]

/-- One JSON record: an `OrderedDict` from string keys to values. -/
def JRecord := List (String × PyValue)

instance : DecidableEq JRecord := by
  unfold JRecord
  infer_instance

/-- The `for field in _USER_FIELDS` loop of
`OutputWriterJSON._user_duration_to_object`: look up each identity field on
the user (raising `KeyError` when absent), keyed by the field's string
name. -/
def collectFields (user : User) : List UserField →
    Except PyErr (List (String × PyValue))
  | [] => .ok []
  | f :: fs => do
    let v ← user.getitem f
    let rest ← collectFields user fs
    pure ((f.toStr, v) :: rest)

/-- `OutputWriterJSON._user_duration_to_object`: the identity fields looked
up on the user, then the duration as a string under the `"duration"` key. -/
def user_duration_to_object (user : User) (duration : Nat) :
    Except PyErr JRecord := do
  let idFields ← collectFields user _USER_FIELDS
  pure (idFields ++ [("duration", .str (strTimedelta duration))])

/-- The total form of `user_duration_to_object` on users carrying all
identity fields (`KeyError`-free). -/
def userDurationObject (user : User) (duration : Nat) : JRecord :=
  _USER_FIELDS.map (fun f => (f.toStr, (user.lookup f).getD .none))
    ++ [("duration", .str (strTimedelta duration))]

/-- `OutputWriterJSON` state: the JSON values accumulated in `self._array`
and the write calls issued to the file descriptor so far (each write carries
the array it serialized). -/
structure OutputWriterJSON where
  array : List JRecord
  writes : List (List JRecord)
  deriving DecidableEq

namespace OutputWriterJSON

/-- `OutputWriterJSON.__init__`: empty array, nothing written. -/
def init : OutputWriterJSON := ⟨[], []⟩

/-- `OutputWriterJSON.add_user_duration`: append one record to `self._array`;
nothing is written to the file descriptor. -/
def add_user_duration (w : OutputWriterJSON) (user : User) (duration : Nat) :
    Except PyErr OutputWriterJSON := do
  let r ← user_duration_to_object user duration
  pure ⟨w.array ++ [r], w.writes⟩

/-- `OutputWriterJSON.__exit__`: one `fd.write(json.dumps(self._array))`. -/
def close (w : OutputWriterJSON) : OutputWriterJSON :=
  ⟨w.array, w.writes ++ [w.array]⟩

/-- Run a sequence of `add_user_duration` calls against a writer. -/
def processAll (w : OutputWriterJSON) :
    List (User × Nat) → Except PyErr OutputWriterJSON
  | [] => .ok w
  | c :: cs => do
    let w2 ← w.add_user_duration c.1 c.2
    processAll w2 cs

end OutputWriterJSON

/-- `PlotBuilder._duration_by_user` assignment `self._duration_by_user[user]
= duration`: a Python `dict` keyed by `User` objects, whose `__eq__` and
`__hash__` compare UIDs; on a key match the original key object is kept and
only the value replaced, otherwise the entry is appended. -/
def dictSetUser : List (User × Nat) → User → Nat →
    Except PyErr (List (User × Nat))
  | [], u, d => .ok [(u, d)]
  | (k, v) :: rest, u, d => do
    let eq ← k.eqE u
    if eq then .ok ((k, d) :: rest)
    else do
      let r ← dictSetUser rest u d
      pure ((k, v) :: r)

/-- `PlotBuilder.add_user_duration`: store the duration under the user key. -/
def PlotBuilder.add_user_duration (m : List (User × Nat)) (user : User)
    (duration : Nat) : Except PyErr (List (User × Nat)) :=
  dictSetUser m user duration

/-! ## Mutation sequences on a `User` (for the field-parser invariant) -/

/-- One mutation of a `User` mapping: `user[field] = value` or
`del user[field]`. -/
inductive UserOp where
  | setF (f : UserField) (v : PyValue)
  | delF (f : UserField)
  deriving DecidableEq, Repr

/-- Run one mutation. -/
def applyOp (u : User) : UserOp → Except PyErr User
  | .setF f v => u.setitem f v
  | .delF f => u.delitem f

/-- Run a sequence of mutations, propagating the first exception. -/
def applyOps (u : User) : List UserOp → Except PyErr User
  | [] => .ok u
  | op :: ops => do
    let u2 ← applyOp u op
    applyOps u2 ops

/-- Every pair stored under the UID key is an `int`. -/
def uidTyped (u : User) : Prop :=
  ∀ p ∈ u.fields, p.1 = UserField.uid → ∃ n, p.2 = PyValue.int n

/-- Every pair stored under the ONLINE key is a `bool`. -/
def onlineTyped (u : User) : Prop :=
  ∀ p ∈ u.fields, p.1 = UserField.online → ∃ b, p.2 = PyValue.bool b

/-- Every identity field of `_USER_FIELDS` is present on the user. -/
def hasIdentityFields (u : User) : Prop :=
  ∀ f ∈ _USER_FIELDS, (u.lookup f).isSome

instance : DecidablePred hasIdentityFields := fun u => by
  unfold hasIdentityFields
  infer_instance

/-! ## Concrete snapshots used to instantiate the theorems -/

/-- An online user (UID 1) as `api.users_get` would return it. -/
def annaOnline : User :=
  ⟨[(.uid, .int 1), (.first_name, .str "Anna"), (.online, .bool true),
    (.last_seen, .lastSeen ⟨50⟩)]⟩

/-- An offline user (UID 2). -/
def bertOffline : User :=
  ⟨[(.uid, .int 2), (.first_name, .str "Bert"), (.online, .bool false),
    (.last_seen, .lastSeen ⟨100⟩)]⟩

/-- The same user as `bertOffline` (UID 2), observed online. -/
def bertOnline : User :=
  ⟨[(.uid, .int 2), (.first_name, .str "Bert"), (.online, .bool true),
    (.last_seen, .lastSeen ⟨100⟩)]⟩

/-- A user carrying all four identity fields. -/
def carlFull : User :=
  ⟨[(.uid, .int 3), (.first_name, .str "Carl"), (.last_name, .str "Lee"),
    (.screen_name, .str "carl")]⟩

/-!
# Theorems about the claims
-/

/-- Monadic bind on a successful `Except` runs the continuation. -/
@[simp] theorem ok_bind {ε α β : Type} (x : α) (f : α → Except ε β) :
    (Except.ok (ε := ε) x >>= f) = f x := rfl

/-- Monadic bind on a failed `Except` propagates the exception. -/
@[simp] theorem error_bind {ε α β : Type} (e : ε) (f : α → Except ε β) :
    (Except.error (α := α) e >>= f) = Except.error (α := β) e := rfl

/-- C1: in live tracking, when a tracked user's stored snapshot is online and
the freshly acquired one is offline, the code does not emit a went-offline
notification: `print_status_update` reaches `user_went_offline`, whose body
calls the unbound name `format_usre_went_offline` (a typo for the defined
`format_user_went_offline`), so the sink invocation raises `NameError` and
the run loop aborts instead of logging the notification.  Shown on the
concrete transition of UID 2 from online to offline, and on a full run. -/
theorem C1_went_offline_raises_name_error :
    "format_usre_went_offline" ∉ trackStatusGlobals ∧
    "format_user_went_offline" ∈ trackStatusGlobals ∧
    print_status_update bertOffline =
      .error (.nameError "format_usre_went_offline") ∧
    updateCycle [bertOnline] [bertOffline] =
      .error (.nameError "format_usre_went_offline") ∧
    loop_update_status [bertOnline] [[bertOffline]] =
      .error (.nameError "format_usre_went_offline") := by
  refine ⟨by decide, by decide, by decide, by decide, by decide⟩

/-- C4: the `__main__` handler around the run loop maps a
`KeyboardInterrupt` to a clean exit (status 0) and any other unrecovered
exception to `sys.exit(1)` (non-zero). -/
theorem C4_exit_codes :
    mainExitCode LoopExit.keyboardInterrupt = 0 ∧
    ∀ msg, mainExitCode (LoopExit.exception msg) ≠ 0 :=
  ⟨rfl, fun _ => by simp [mainExitCode]⟩

/-- C6: whenever the flag's string parses to an integer `n`, `parse_timeout`
returns `n` exactly when `n ≥ 1` and raises `ArgumentTypeError` exactly when
`n < 1`; the argparse default for the omitted flag is 5 seconds. -/
theorem C6_parse_timeout (s : String) (n : Int)
    (h : pyIntOfString s = Option.some n) :
    (parse_timeout s = .ok n ↔ 1 ≤ n) ∧
    ((∃ msg, parse_timeout s = .error (.argumentTypeError msg)) ↔ n < 1) ∧
    timeoutArgDefault = 5 := by
  have hres : parse_timeout s =
      if n < 1 then
        .error (.argumentTypeError
          "please specify a positive number of seconds as refresh timeout")
      else .ok n := by
    unfold parse_timeout
    rw [h]
    rfl
  rw [hres]
  by_cases hn : n < 1
  · rw [if_pos hn]
    refine ⟨⟨fun hc => absurd hc (by simp), fun hc => absurd hc (by omega)⟩,
      ⟨fun _ => hn, fun _ => ⟨_, rfl⟩⟩, rfl⟩
  · rw [if_neg hn]
    refine ⟨⟨fun _ => by omega, fun _ => rfl⟩,
      ⟨fun ⟨msg, hc⟩ => absurd hc (by simp), fun hc => absurd hc hn⟩, rfl⟩

/-- Witness for C6 at the concrete flag strings `"7"`. -/
theorem C6_witness :
    (parse_timeout "7" = .ok 7 ↔ 1 ≤ (7 : Int)) ∧
    ((∃ msg, parse_timeout "7" = .error (.argumentTypeError msg)) ↔
      (7 : Int) < 1) ∧
    timeoutArgDefault = 5 :=
  C6_parse_timeout "7" 7 (by decide)

/-- C10: on any user storing an integer UID, `get_screen_name` returns the
stored screen-name field when one is present and `'id' + str(uid)` when it
is absent; neither branch raises. -/
theorem C10_get_screen_name (u : User) (n : Int)
    (h : u.lookup .uid = Option.some (.int n)) :
    (∀ v, u.lookup .screen_name = Option.some v →
      u.get_screen_name = .ok v) ∧
    (u.lookup .screen_name = Option.none →
      u.get_screen_name = .ok (.str ("id" ++ toString n))) := by
  constructor
  · intro v hv
    simp [User.get_screen_name, User.has_screen_name, User.getitem, hv]
  · intro hv
    simp [User.get_screen_name, User.has_screen_name, User.getitem,
      User.get_uid, hv, h, PyValue.pyStr]

/-- Witness for C10: a user with only a UID, and one with a screen name. -/
theorem C10_witness :
    User.get_screen_name ⟨[(.uid, .int 3)]⟩ = .ok (.str "id3") ∧
    User.get_screen_name carlFull = .ok (.str "carl") := by
  constructor
  · exact (C10_get_screen_name ⟨[(.uid, .int 3)]⟩ 3 (by decide)).2 (by decide)
  · exact (C10_get_screen_name carlFull 3 (by decide)).1 (.str "carl")
      (by decide)

/-- Values that compare `==` in Python hash equally (the property CPython
guarantees and `dict` relies on). -/
theorem pyHash_congr (a b : PyValue) (h : a.pyEq b = true) :
    pyHashValue a = pyHashValue b := by
  cases a <;> cases b <;>
    simp_all [PyValue.pyEq, pyHashValue]

/-- C8: `User.__eq__` compares exactly the UIDs (every other field is
ignored), equal users hash equally, and the `PlotBuilder` duration dict
therefore collapses two records whose users share a UID into one entry
(keeping the first key object and the second duration). -/
theorem C8_uid_equality (u v : User) (a b : PyValue)
    (hu : u.lookup .uid = Option.some a) (hv : v.lookup .uid = Option.some b) :
    u.eqE v = .ok (a.pyEq b) ∧
    (a.pyEq b = true → u.hashE = v.hashE) ∧
    (∀ d₁ d₂ : Nat, a.pyEq b = true →
      dictSetUser [] u d₁ = .ok [(u, d₁)] ∧
      dictSetUser [(u, d₁)] v d₂ = .ok [(u, d₂)]) := by
  refine ⟨?_, ?_, ?_⟩
  · simp [User.eqE, User.get_uid, User.getitem, hu, hv]
  · intro h
    simp [User.hashE, User.get_uid, User.getitem, hu, hv, pyHash_congr a b h]
  · intro d₁ d₂ h
    refine ⟨rfl, ?_⟩
    simp [dictSetUser, User.eqE, User.get_uid, User.getitem, hu, hv, h]

/-- Witness for C8: UID 2 stored under two snapshots that differ in every
other field. -/
theorem C8_witness :
    User.eqE bertOffline bertOnline = .ok true ∧
    User.hashE bertOffline = User.hashE bertOnline ∧
    dictSetUser [(bertOffline, 30)] bertOnline 45 = .ok [(bertOffline, 45)] := by
  have h := C8_uid_equality bertOffline bertOnline (.int 2) (.int 2)
    (by decide) (by decide)
  exact ⟨by simpa using h.1, h.2.1 (by decide), (h.2.2 30 45 (by decide)).2⟩

/-- On a user carrying the requested fields, the identity-field loop
returns the looked-up values keyed by field name, in field order. -/
theorem collectFields_eq (u : User) :
    ∀ fs : List UserField, (∀ f ∈ fs, (u.lookup f).isSome) →
      collectFields u fs =
        .ok (fs.map (fun f => (f.toStr, (u.lookup f).getD .none)))
  | [], _ => rfl
  | f :: fs, h => by
    obtain ⟨v, hv⟩ := Option.isSome_iff_exists.mp (h f (by simp))
    have ih := collectFields_eq u fs (fun g hg => h g (by simp [hg]))
    simp [collectFields, User.getitem, hv, ih]

/-- On a user carrying all identity fields, the record builder succeeds and
produces its total specification. -/
theorem user_duration_to_object_eq (u : User) (d : Nat)
    (h : hasIdentityFields u) :
    user_duration_to_object u d = .ok (userDurationObject u d) := by
  simp [user_duration_to_object, collectFields_eq u _USER_FIELDS h,
    userDurationObject]

/-- Running `add_user_duration` calls only grows `self._array`; nothing is
written to the file descriptor. -/
theorem processAll_spec :
    ∀ (calls : List (User × Nat)) (arr : List JRecord)
      (ws : List (List JRecord)),
      (∀ c ∈ calls, hasIdentityFields c.1) →
      OutputWriterJSON.processAll ⟨arr, ws⟩ calls =
        .ok ⟨arr ++ calls.map (fun c => userDurationObject c.1 c.2), ws⟩
  | [], arr, ws, _ => by simp [OutputWriterJSON.processAll]
  | c :: cs, arr, ws, h => by
    have hc := user_duration_to_object_eq c.1 c.2 (h c (by simp))
    have ih := processAll_spec cs (arr ++ [userDurationObject c.1 c.2]) ws
      (fun x hx => h x (by simp [hx]))
    simp [OutputWriterJSON.processAll, OutputWriterJSON.add_user_duration,
      hc, ih]

/-- C7: the JSON output writer writes nothing before close — any sequence of
`add_user_duration` calls on a fresh writer leaves the write log empty and
accumulates exactly one record per call, in call order, each record being
the user identity fields followed by the duration as a string; on close the
writer issues exactly one write carrying that array. -/
theorem C7_json_writer (calls : List (User × Nat))
    (h : ∀ c ∈ calls, hasIdentityFields c.1) :
    OutputWriterJSON.processAll OutputWriterJSON.init calls =
      .ok ⟨calls.map (fun c => userDurationObject c.1 c.2), []⟩ ∧
    (OutputWriterJSON.close
        ⟨calls.map (fun c => userDurationObject c.1 c.2), []⟩).writes =
      [calls.map (fun c => userDurationObject c.1 c.2)] := by
  refine ⟨?_, rfl⟩
  simpa [OutputWriterJSON.init] using processAll_spec calls [] [] h

/-- Witness for C7: two records on concrete users. -/
theorem C7_witness :
    OutputWriterJSON.processAll OutputWriterJSON.init
        [(carlFull, 75), (carlFull, 3675)] =
      .ok ⟨[userDurationObject carlFull 75, userDurationObject carlFull 3675],
           []⟩ ∧
    (OutputWriterJSON.close
        ⟨[userDurationObject carlFull 75, userDurationObject carlFull 3675],
         []⟩).writes =
      [[userDurationObject carlFull 75, userDurationObject carlFull 3675]] :=
  C7_json_writer [(carlFull, 75), (carlFull, 3675)] (by decide)

/-- A pair found in the dictionary after a key update was either there
before or is the freshly parsed binding. -/
theorem mem_setAssoc :
    ∀ (l : List (UserField × PyValue)) (f : UserField) (v : PyValue)
      (p : UserField × PyValue),
      p ∈ User.setAssoc l f v → p ∈ l ∨ p = (f, v)
  | [], f, v, p, h => by
    simp [User.setAssoc] at h
    exact Or.inr h
  | (g, w) :: rest, f, v, p, h => by
    by_cases hgf : g = f
    · rw [User.setAssoc, if_pos hgf] at h
      rcases List.mem_cons.mp h with h1 | h1
      · exact Or.inr (by rw [h1, hgf])
      · exact Or.inl (List.mem_cons_of_mem _ h1)
    · rw [User.setAssoc, if_neg hgf] at h
      rcases List.mem_cons.mp h with h1 | h1
      · exact Or.inl (by rw [h1]; exact List.mem_cons_self _ _)
      · rcases mem_setAssoc rest f v p h1 with h2 | h2
        · exact Or.inl (List.mem_cons_of_mem _ h2)
        · exact Or.inr h2

/-- A pair found in the dictionary after a key deletion was there before. -/
theorem mem_delAssoc :
    ∀ (l : List (UserField × PyValue)) (f : UserField)
      (p : UserField × PyValue),
      p ∈ User.delAssoc l f → p ∈ l
  | [], _, p, h => by simp [User.delAssoc] at h
  | (g, w) :: rest, f, p, h => by
    by_cases hgf : g = f
    · rw [User.delAssoc, if_pos hgf] at h
      exact List.mem_cons_of_mem _ h
    · rw [User.delAssoc, if_neg hgf] at h
      rcases List.mem_cons.mp h with h1 | h1
      · exact h1 ▸ List.mem_cons_self _ _
      · exact List.mem_cons_of_mem _ (mem_delAssoc rest f p h1)

/-- A successful dictionary lookup exposes a stored pair. -/
theorem lookupAssoc_mem :
    ∀ (l : List (UserField × PyValue)) (f : UserField) (v : PyValue),
      lookupAssoc l f = Option.some v → (f, v) ∈ l
  | [], _, _, h => by simp [lookupAssoc] at h
  | (g, w) :: rest, f, v, h => by
    by_cases hgf : g = f
    · rw [lookupAssoc, if_pos hgf] at h
      cases h
      exact hgf ▸ List.mem_cons_self _ _
    · rw [lookupAssoc, if_neg hgf] at h
      exact List.mem_cons_of_mem _ (lookupAssoc_mem rest f v h)

/-- The UID parser only ever stores an `int`. -/
theorem parse_uid_int {v w : PyValue} (h : User.parse .uid v = .ok w) :
    ∃ n, w = PyValue.int n := by
  have h2 : (pyIntCoerce v).map PyValue.int = .ok w := h
  cases hc : pyIntCoerce v with
  | ok n =>
    rw [hc] at h2
    exact ⟨n, (Except.ok.inj h2).symm⟩
  | error e =>
    rw [hc] at h2
    cases h2

/-- The ONLINE parser only ever stores a `bool`. -/
theorem parse_online_bool {v w : PyValue} (h : User.parse .online v = .ok w) :
    ∃ b, w = PyValue.bool b := by
  cases v with
  | str s =>
    have h2 : (if s = "True" then Except.ok (ε := PyErr) (PyValue.bool true)
        else if s = "False" then .ok (.bool false)
        else .error .valueError) = .ok w := h
    split_ifs at h2 with h1 h3
    · exact ⟨true, (Except.ok.inj h2).symm⟩
    · exact ⟨false, (Except.ok.inj h2).symm⟩
  | int n => exact ⟨_, (Except.ok.inj h).symm⟩
  | bool b => exact ⟨_, (Except.ok.inj h).symm⟩
  | none => exact ⟨_, (Except.ok.inj h).symm⟩
  | lastSeen l => exact ⟨_, (Except.ok.inj h).symm⟩

/-- One successful mutation keeps the UID and ONLINE values well-typed. -/
theorem applyOp_preserves {u u2 : User} {op : UserOp}
    (hu : uidTyped u) (ho : onlineTyped u) (h : applyOp u op = .ok u2) :
    uidTyped u2 ∧ onlineTyped u2 := by
  cases op with
  | setF f v =>
    simp only [applyOp] at h
    unfold User.setitem at h
    cases hp : User.parse f v with
    | error e => rw [hp] at h; cases h
    | ok w =>
      rw [hp] at h
      have hu2 : u2 = ⟨User.setAssoc u.fields f w⟩ := (Except.ok.inj h).symm
      subst hu2
      constructor
      · intro p hpmem hpf
        rcases mem_setAssoc _ _ _ _ hpmem with hm | hm
        · exact hu p hm hpf
        · subst hm
          simp only at hpf
          subst hpf
          exact parse_uid_int hp
      · intro p hpmem hpf
        rcases mem_setAssoc _ _ _ _ hpmem with hm | hm
        · exact ho p hm hpf
        · subst hm
          simp only at hpf
          subst hpf
          exact parse_online_bool hp
  | delF f =>
    simp only [applyOp] at h
    unfold User.delitem at h
    cases hl : u.lookup f with
    | none => rw [hl] at h; cases h
    | some w =>
      rw [hl] at h
      have hu2 : u2 = ⟨User.delAssoc u.fields f⟩ := (Except.ok.inj h).symm
      subst hu2
      exact ⟨fun p hp hpf => hu p (mem_delAssoc _ _ _ hp) hpf,
             fun p hp hpf => ho p (mem_delAssoc _ _ _ hp) hpf⟩

/-- A successful mutation sequence keeps the UID and ONLINE values
well-typed. -/
theorem applyOps_preserves {ops : List UserOp} :
    ∀ {u u2 : User}, uidTyped u → onlineTyped u →
      applyOps u ops = .ok u2 → uidTyped u2 ∧ onlineTyped u2 := by
  induction ops with
  | nil =>
    intro u u2 hu ho h
    cases h
    exact ⟨hu, ho⟩
  | cons op ops ih =>
    intro u u2 hu ho h
    unfold applyOps at h
    cases hop : applyOp u op with
    | error e => rw [hop] at h; cases h
    | ok u1 =>
      rw [hop] at h
      obtain ⟨hu1, ho1⟩ := applyOp_preserves hu ho hop
      exact ih hu1 ho1 h

/-- C9: every assignment runs the per-field parser, so after any successful
mutation sequence starting from a well-typed user every stored UID is an
`int` and every stored ONLINE flag is a `bool`; assigning ONLINE from a
string succeeds exactly for `"True"` and `"False"` (raising `ValueError`
otherwise), and a non-string value is stored as its `bool` coercion. -/
theorem C9_field_parsers (u0 : User) (ops : List UserOp) (u : User)
    (h0u : uidTyped u0) (h0o : onlineTyped u0)
    (h : applyOps u0 ops = .ok u) :
    ((∀ v, u.lookup .uid = Option.some v → ∃ n, v = PyValue.int n) ∧
     (∀ v, u.lookup .online = Option.some v → ∃ b, v = PyValue.bool b)) ∧
    (∀ (w : User) (s : String),
      ((∃ w2, w.setitem .online (.str s) = .ok w2) ↔
        s = "True" ∨ s = "False") ∧
      (s ≠ "True" → s ≠ "False" →
        w.setitem .online (.str s) = .error .valueError)) ∧
    (∀ (w : User) (v : PyValue), (∀ s, v ≠ .str s) →
      w.setitem .online v =
        .ok ⟨User.setAssoc w.fields .online (.bool v.truthy)⟩) := by
  obtain ⟨hu, ho⟩ := applyOps_preserves h0u h0o h
  refine ⟨⟨?_, ?_⟩, ?_, ?_⟩
  · intro v hv
    exact hu (.uid, v) (lookupAssoc_mem _ _ _ hv) rfl
  · intro v hv
    exact ho (.online, v) (lookupAssoc_mem _ _ _ hv) rfl
  · intro w s
    constructor
    · constructor
      · rintro ⟨w2, hw2⟩
        by_contra hc
        push_neg at hc
        simp [User.setitem, User.parse, _parse_online_flag, hc.1, hc.2] at hw2
      · rintro (rfl | rfl)
        · exact ⟨⟨User.setAssoc w.fields .online (.bool true)⟩,
            by simp [User.setitem, User.parse, _parse_online_flag]⟩
        · exact ⟨⟨User.setAssoc w.fields .online (.bool false)⟩,
            by simp [User.setitem, User.parse, _parse_online_flag]⟩
    · intro h1 h2
      simp [User.setitem, User.parse, _parse_online_flag, h1, h2]
  · intro w v hv
    cases v with
    | str s => exact absurd rfl (hv s)
    | int n => simp [User.setitem, User.parse, _parse_online_flag]
    | bool b => simp [User.setitem, User.parse, _parse_online_flag]
    | none => simp [User.setitem, User.parse, _parse_online_flag]
    | lastSeen l => simp [User.setitem, User.parse, _parse_online_flag]

/-- Witness for C9: a concrete mutation sequence from an empty user, and the
ONLINE string assignment on the result. -/
theorem C9_witness :
    (∀ v, (User.mk [(.uid, .int 42), (.online, .bool true),
        (.first_name, .str "True")]).lookup .uid = Option.some v →
      ∃ n, v = PyValue.int n) ∧
    ((∃ w2, (User.mk []).setitem .online (.str "yes") = .ok w2) ↔
      ("yes" = "True" ∨ "yes" = "False")) ∧
    (User.mk []).setitem .online (.int 7) =
      .ok ⟨User.setAssoc [] .online (.bool (PyValue.int 7).truthy)⟩ := by
  have h := C9_field_parsers ⟨[]⟩
    [.setF .uid (.str "42"), .setF .online (.int 7),
     .setF .first_name (.bool true)]
    ⟨[(.uid, .int 42), (.online, .bool true), (.first_name, .str "True")]⟩
    (fun p hp => absurd hp (List.not_mem_nil p))
    (fun p hp => absurd hp (List.not_mem_nil p))
    (by decide)
  exact ⟨h.1.1, (h.2.1 ⟨[]⟩ "yes").1,
    h.2.2 ⟨[]⟩ (.int 7) (fun s hs => PyValue.noConfusion hs)⟩

/-! ## Lemmas about the live tracking loop -/

/-- The default `User` used only to state total-indexing hypotheses. -/
def defaultUser : User := ⟨[]⟩

/-- Reading a stored ONLINE value. -/
theorem onlineVal_eq {u : User} {v : PyValue}
    (h : u.lookup .online = Option.some v) : onlineVal u = v := by
  simp [onlineVal, h]

/-- `is_online` succeeds on a user storing an ONLINE value. -/
theorem is_online_ok {u : User} {v : PyValue}
    (h : u.lookup .online = Option.some v) : u.is_online = .ok v := by
  simp [User.is_online, User.getitem, h]

/-- A successful positional read gives the in-bounds total read. -/
theorem getD_of_get? {l : List User} {j : Nat} {u : User}
    (h : l.get? j = Option.some u) : l.getD j defaultUser = u := by
  rw [List.getD_eq_getElem?_getD, ← List.get?_eq_getElem?, h]
  rfl

/-- `format_user` succeeds on any user storing a first name. -/
theorem format_user_ok {u : User} (h : (u.lookup .first_name).isSome) :
    ∃ s, format_user u = .ok s := by
  obtain ⟨fn, hfn⟩ := Option.isSome_iff_exists.mp h
  unfold format_user
  by_cases hl : u.has_last_name
  · rw [if_pos hl]
    unfold User.has_last_name at hl
    cases hln : u.lookup .last_name with
    | none => rw [hln] at hl; cases hl
    | some w =>
      exact ⟨w.pyStr ++ " " ++ fn.pyStr,
        by simp [User.get_last_name, User.get_first_name, User.getitem,
          hln, hfn]⟩
  · rw [if_neg hl]
    exact ⟨fn.pyStr,
      by simp [User.get_first_name, User.getitem, hfn]⟩

/-- `print_status_update` succeeds on a user observed online (it logs the
went-ONLINE line); contrast with `user_went_offline`, whose name lookup
always raises. -/
theorem print_status_update_online_ok {u : User} {v : PyValue}
    (hon : u.lookup .online = Option.some v) (ht : v.truthy = true)
    (hfn : (u.lookup .first_name).isSome) :
    ∃ logs, print_status_update u = .ok logs := by
  obtain ⟨s, hfu⟩ := format_user_ok hfn
  exact ⟨[s ++ " went ONLINE"],
    by simp [print_status_update, is_online_ok hon, ht, user_went_online,
      format_user_went_online, hfu]⟩

/-- `print_status` succeeds on a user storing the fields its branch logs. -/
theorem print_status_ok {u : User} {v : PyValue}
    (hon : u.lookup .online = Option.some v)
    (hfn : (u.lookup .first_name).isSome)
    (hls : v.truthy = false → (u.lookup .last_seen).isSome) :
    ∃ logs, print_status u = .ok logs := by
  obtain ⟨s, hfu⟩ := format_user_ok hfn
  cases ht : v.truthy with
  | false =>
    obtain ⟨ls, hlsv⟩ := Option.isSome_iff_exists.mp (hls ht)
    exact ⟨[s ++ " is OFFLINE", s ++ " was last seen at " ++ ls.pyStr],
      by simp [print_status, is_online_ok hon, ht, user_is_offline,
        format_user_is_offline, format_user_last_seen, hfu,
        User.get_last_seen, User.getitem, hlsv]⟩
  | true =>
    exact ⟨[s ++ " is ONLINE"],
      by simp [print_status, is_online_ok hon, ht, user_is_online,
        format_user_is_online, hfu]⟩

/-- The first acquisition produces exactly one sink invocation per returned
user, keyed to the user's online flag, in list order. -/
theorem firstCycle_spec :
    ∀ users : List User,
      (∀ u ∈ users, ∃ v, u.lookup .online = Option.some v ∧
        (u.lookup .first_name).isSome ∧
        (v.truthy = false → (u.lookup .last_seen).isSome)) →
      firstCycle users = .ok (users.map (fun u =>
        ⟨u, if (onlineVal u).truthy then TransitionKind.initialOnline
            else TransitionKind.initialOffline⟩))
  | [], _ => rfl
  | u :: rest, h => by
    obtain ⟨v, hon, hfn, hls⟩ := h u (by simp)
    obtain ⟨logs, hps⟩ := print_status_ok hon hfn hls
    have ih := firstCycle_spec rest (fun x hx => h x (by simp [hx]))
    simp [firstCycle, is_online_ok hon, hps, ih, onlineVal_eq hon]

/-- The cycle-event specification only depends on the stored entries at the
visited indices. -/
theorem cycleEventsOn_congr {s1 s2 updated : List User} {js : List Nat}
    (h : ∀ j ∈ js, s1.get? j = s2.get? j) :
    cycleEventsOn s1 updated js = cycleEventsOn s2 updated js :=
  List.filterMap_congr (fun j hj => by rw [h j hj])

/-- Characterization of a successful polling iteration: under in-bounds
visited indices, stored ONLINE fields on both sides, distinct indices, and
every positionally detected transition being one whose sink call succeeds (a
transition to online with a first name present), the loop returns the
specified stored list and event list. -/
theorem updateLoop_spec (updated : List User) :
    ∀ (js : List Nat) (stored : List User),
      (∀ j ∈ js, j < stored.length ∧ j < updated.length) →
      (∀ u ∈ stored, (u.lookup .online).isSome) →
      (∀ u ∈ updated, (u.lookup .online).isSome) →
      js.Nodup →
      (∀ j ∈ js, ∀ su uu, stored[j]? = Option.some su →
        updated[j]? = Option.some uu →
        (onlineVal su).pyEq (onlineVal uu) = false →
        (onlineVal uu).truthy = true ∧ (uu.lookup .first_name).isSome) →
      updateLoop stored updated js =
        .ok (storedAfterLoop stored updated js,
             cycleEventsOn stored updated js)
  | [], stored, _, _, _, _, _ => by
    simp [updateLoop, storedAfterLoop, cycleEventsOn]
  | i :: is, stored, hb, hs, hup, hnd, hok => by
    obtain ⟨his, hiu⟩ := hb i (by simp)
    have hsu : stored[i]? = Option.some stored[i] :=
      List.getElem?_eq_getElem his
    have huu : updated[i]? = Option.some updated[i] :=
      List.getElem?_eq_getElem hiu
    obtain ⟨sv, hsv⟩ := Option.isSome_iff_exists.mp
      (hs _ (List.getElem_mem his))
    obtain ⟨uv, huv⟩ := Option.isSome_iff_exists.mp
      (hup _ (List.getElem_mem hiu))
    have hnodup := List.nodup_cons.mp hnd
    by_cases heq : sv.pyEq uv = true
    · have ih := updateLoop_spec updated is stored
        (fun j hj => hb j (by simp [hj])) hs hup hnodup.2
        (fun j hj su uu h1 h2 h3 => hok j (by simp [hj]) su uu h1 h2 h3)
      simp [updateLoop, pyIndex, hsu, huu, is_online_ok hsv,
        is_online_ok huv, heq, ih, storedAfterLoop, cycleEventsOn,
        List.filterMap_cons, onlineVal_eq hsv, onlineVal_eq huv]
    · have heq2 : sv.pyEq uv = false := by
        cases hx : sv.pyEq uv
        · rfl
        · exact absurd hx heq
      have hne : (onlineVal stored[i]).pyEq (onlineVal updated[i]) = false := by
        rwa [onlineVal_eq hsv, onlineVal_eq huv]
      obtain ⟨htr, hfn⟩ := hok i (by simp) _ _ hsu huu hne
      have htr2 : uv.truthy = true := by rwa [onlineVal_eq huv] at htr
      obtain ⟨logs, hps⟩ := print_status_update_online_ok huv htr2 hfn
      have hset : ∀ j ∈ is, (stored.set i updated[i]).get? j =
          stored.get? j := by
        intro j hj
        have hij : i ≠ j := fun hc => hnodup.1 (hc ▸ hj)
        exact List.get?_set_ne _ _ hij
      have hsetE : ∀ j ∈ is, (stored.set i updated[i])[j]? =
          stored[j]? := by
        intro j hj
        rw [← List.get?_eq_getElem?, ← List.get?_eq_getElem?]
        exact hset j hj
      have ih := updateLoop_spec updated is (stored.set i updated[i])
        (fun j hj => by
          rw [List.length_set]
          exact hb j (by simp [hj]))
        (fun u hu => by
          rcases List.mem_or_eq_of_mem_set hu with h1 | h1
          · exact hs u h1
          · exact h1 ▸ hup _ (List.getElem_mem hiu))
        hup hnodup.2
        (fun j hj su uu h1 h2 h3 =>
          hok j (by simp [hj]) su uu (by rwa [hsetE j hj] at h1) h2 h3)
      simp [updateLoop, pyIndex, hsu, huu, is_online_ok hsv,
        is_online_ok huv, heq2, hps, ih, storedAfterLoop,
        cycleEventsOn, List.filterMap_cons, onlineVal_eq hsv,
        onlineVal_eq huv]
      exact List.filterMap_congr (fun j hj => by rw [hsetE j hj])

/-- Inversion of a successful polling iteration: whatever made it succeed,
the returned stored list and events are the specified ones. -/
theorem updateLoop_inv (updated : List User) :
    ∀ (js : List Nat) (stored st : List User) (evs : List Event),
      js.Nodup →
      updateLoop stored updated js = .ok (st, evs) →
      st = storedAfterLoop stored updated js ∧
      evs = cycleEventsOn stored updated js
  | [], stored, st, evs, _, h => by
    simp [updateLoop] at h
    simp [storedAfterLoop, cycleEventsOn, h.1.symm, h.2.symm]
  | i :: is, stored, st, evs, hnd, h => by
    have hnodup := List.nodup_cons.mp hnd
    rw [updateLoop] at h
    cases hsu : stored.get? i with
    | none => rw [pyIndex, hsu] at h; simp at h
    | some su =>
    cases huu : updated.get? i with
    | none => rw [pyIndex, hsu, pyIndex, huu] at h; simp at h
    | some uu =>
    rw [pyIndex, hsu, pyIndex, huu] at h
    simp only [ok_bind] at h
    cases hsv : su.lookup .online with
    | none =>
      rw [User.is_online, User.getitem, hsv] at h
      simp at h
    | some sv =>
    cases huv : uu.lookup .online with
    | none =>
      rw [User.is_online, User.getitem, hsv, User.is_online,
        User.getitem, huv] at h
      simp at h
    | some uv =>
    rw [User.is_online, User.getitem, hsv, User.is_online,
      User.getitem, huv] at h
    simp only [ok_bind] at h
    have hsuE : stored[i]? = Option.some su := by
      rw [← List.get?_eq_getElem?]
      exact hsu
    have huuE : updated[i]? = Option.some uu := by
      rw [← List.get?_eq_getElem?]
      exact huu
    by_cases heq : sv.pyEq uv = true
    · rw [if_pos heq] at h
      have ih := updateLoop_inv updated is stored st evs hnodup.2 h
      simp [storedAfterLoop, cycleEventsOn, List.filterMap_cons, hsu, huu,
        hsuE, huuE, onlineVal_eq hsv, onlineVal_eq huv, heq, ih.1, ih.2]
    · rw [if_neg heq] at h
      have heq2 : sv.pyEq uv = false := by
        cases hx : sv.pyEq uv
        · rfl
        · exact absurd hx heq
      cases hps : print_status_update uu with
      | error e => rw [hps] at h; simp at h
      | ok logs =>
      rw [hps] at h
      simp only [ok_bind] at h
      cases hrec : updateLoop (stored.set i uu) updated is with
      | error e => rw [hrec] at h; simp at h
      | ok p =>
      rw [hrec] at h
      simp only [ok_bind] at h
      obtain ⟨st2, evs2⟩ := p
      have hpair : st = st2 ∧
          evs = ⟨uu, if uv.truthy then .wentOnline else .wentOffline⟩ ::
            evs2 := by
        have := Except.ok.inj h
        exact ⟨congrArg Prod.fst this |>.symm, congrArg Prod.snd this |>.symm⟩
      have ih := updateLoop_inv updated is (stored.set i uu) st2 evs2
        hnodup.2 hrec
      have hset : ∀ j ∈ is, (stored.set i uu).get? j = stored.get? j := by
        intro j hj
        have : i ≠ j := fun hc => hnodup.1 (hc ▸ hj)
        exact List.get?_set_ne _ _ this
      have hcongr : cycleEventsOn (stored.set i uu) updated is =
          cycleEventsOn stored updated is := cycleEventsOn_congr hset
      refine ⟨?_, ?_⟩
      · rw [hpair.1, ih.1]
        simp [storedAfterLoop, hsu, huu, hsuE, huuE, onlineVal_eq hsv,
          onlineVal_eq huv, heq2]
      · rw [hpair.2, ih.2, hcongr]
        simp [cycleEventsOn, List.filterMap_cons, hsu, huu,
          hsuE, huuE, onlineVal_eq hsv, onlineVal_eq huv, heq2]

/-- A positional read through `getD` recovers the stored entry. -/
theorem getD_of_getElem? {l : List User} {j : Nat} {u : User}
    (h : l[j]? = Option.some u) : l.getD j defaultUser = u := by
  rw [List.getD_eq_getElem?_getD, h]
  rfl

/-- When every visited positional pair has equal online flags, the stored
list is left unchanged. -/
theorem storedAfterLoop_id (updated : List User) :
    ∀ (js : List Nat) (stored : List User),
      (∀ j ∈ js, ∀ su uu, stored.get? j = Option.some su →
        updated.get? j = Option.some uu →
        (onlineVal su).pyEq (onlineVal uu) = true) →
      storedAfterLoop stored updated js = stored
  | [], _, _ => rfl
  | i :: is, stored, h => by
    simp only [storedAfterLoop]
    cases hsu : stored.get? i with
    | none => rfl
    | some su =>
      cases huu : updated.get? i with
      | none => rfl
      | some uu =>
        have heq := h i (by simp) su uu hsu huu
        show (if (onlineVal su).pyEq (onlineVal uu) = true
            then storedAfterLoop stored updated is
            else storedAfterLoop (stored.set i uu) updated is) = stored
        rw [if_pos heq]
        exact storedAfterLoop_id updated is stored
          (fun j hj su2 uu2 a b => h j (by simp [hj]) su2 uu2 a b)

/-- When every visited positional pair has equal online flags, no sink
invocation is specified. -/
theorem cycleEventsOn_quiet (stored updated : List User) (js : List Nat)
    (h : ∀ j ∈ js, ∀ su uu, stored.get? j = Option.some su →
      updated.get? j = Option.some uu →
      (onlineVal su).pyEq (onlineVal uu) = true) :
    cycleEventsOn stored updated js = [] := by
  rw [cycleEventsOn, List.filterMap_eq_nil_iff]
  intro j hj
  cases hsu : stored.get? j with
  | none => rfl
  | some su =>
    cases huu : updated.get? j with
    | none => rfl
    | some uu =>
      show (if (onlineVal su).pyEq (onlineVal uu) = true then Option.none
        else Option.some (⟨uu, if (onlineVal uu).truthy then .wentOnline
                              else .wentOffline⟩ : Event)) = Option.none
      rw [if_pos (h j hj su uu hsu huu)]

/-- An entry with positionally matching flags is never overwritten by a
polling iteration. -/
theorem storedAfterLoop_frame (updated : List User) (i0 : Nat) :
    ∀ (js : List Nat) (stored : List User) (su uu : User),
      stored.get? i0 = Option.some su → updated.get? i0 = Option.some uu →
      (onlineVal su).pyEq (onlineVal uu) = true →
      (storedAfterLoop stored updated js).get? i0 = Option.some su
  | [], stored, su, uu, h1, _, _ => by simp only [storedAfterLoop]; exact h1
  | i :: is, stored, su, uu, h1, h2, heq => by
    simp only [storedAfterLoop]
    cases hsu : stored.get? i with
    | none => exact h1
    | some su2 =>
      cases huu : updated.get? i with
      | none => exact h1
      | some uu2 =>
        show (if (onlineVal su2).pyEq (onlineVal uu2) = true
            then storedAfterLoop stored updated is
            else storedAfterLoop (stored.set i uu2) updated is).get? i0 =
          Option.some su
        by_cases hii : i = i0
        · have hsu0 : stored.get? i0 = Option.some su2 := by
            rw [← hii]
            exact hsu
          have huu0 : updated.get? i0 = Option.some uu2 := by
            rw [← hii]
            exact huu
          have hsu2eq : su2 = su := Option.some.inj (hsu0.symm.trans h1)
          have huu2eq : uu2 = uu := Option.some.inj (huu0.symm.trans h2)
          rw [hsu2eq, huu2eq, if_pos heq]
          exact storedAfterLoop_frame updated i0 is stored su uu h1 h2 heq
        · cases hcond : (onlineVal su2).pyEq (onlineVal uu2) with
          | true =>
            rw [if_pos rfl]
            exact storedAfterLoop_frame updated i0 is stored su uu h1 h2 heq
          | false =>
            rw [if_neg (by simp)]
            have h1b : (stored.set i uu2).get? i0 = Option.some su := by
              rw [List.get?_set_ne _ _ hii]
              exact h1
            exact storedAfterLoop_frame updated i0 is (stored.set i uu2)
              su uu h1b h2 heq

/-- Every specified sink invocation originates at a visited index whose
positional flags differ, and carries the freshly acquired user at that
index. -/
theorem cycleEventsOn_user_spec {stored updated : List User}
    {js : List Nat} {e : Event} (h : e ∈ cycleEventsOn stored updated js) :
    ∃ j ∈ js, ∃ su uu, stored.get? j = Option.some su ∧
      updated.get? j = Option.some uu ∧
      (onlineVal su).pyEq (onlineVal uu) = false ∧ e.user = uu := by
  rw [cycleEventsOn] at h
  obtain ⟨j, hj, hfj⟩ := List.mem_filterMap.mp h
  refine ⟨j, hj, ?_⟩
  cases hsu : stored.get? j with
  | none =>
    rw [hsu] at hfj
    cases hfj
  | some su =>
    cases huu : updated.get? j with
    | none =>
      rw [hsu, huu] at hfj
      cases hfj
    | some uu =>
      rw [hsu, huu] at hfj
      have hfj2 : (if (onlineVal su).pyEq (onlineVal uu) = true
          then Option.none
          else Option.some (⟨uu, if (onlineVal uu).truthy then .wentOnline
                                else .wentOffline⟩ : Event)) =
          Option.some e := hfj
      cases hcond : (onlineVal su).pyEq (onlineVal uu) with
      | true => rw [if_pos hcond] at hfj2; cases hfj2
      | false =>
        rw [if_neg (by simp [hcond])] at hfj2
        exact ⟨su, uu, rfl, rfl, hcond,
          by rw [← Option.some.inj hfj2]⟩

/-- C2: on the first acquisition the tracker makes exactly one sink
invocation per returned user — `print_status`, which reports the user's
initial state by its online flag and computes no transition — and on any
subsequent acquisition in which every user's online flag equals the stored
previous flag (the acquisitions being uid-aligned positionally, as the
snapshot source contract guarantees), the cycle makes zero sink invocations
and leaves the stored list unchanged. -/
theorem C2_first_acquisition_and_quiescence (users updated : List User)
    (h1 : ∀ u ∈ users, (u.lookup .online).isSome ∧
        (u.lookup .first_name).isSome ∧
        ((onlineVal u).truthy = false → (u.lookup .last_seen).isSome))
    (hlen : users.length = updated.length)
    (h3 : ∀ u ∈ updated, (u.lookup .online).isSome)
    (halign : ∀ j, j < updated.length →
        (users.getD j defaultUser).lookup .uid =
        (updated.getD j defaultUser).lookup .uid)
    (hsame : ∀ j, j < updated.length →
        (onlineVal (users.getD j defaultUser)).pyEq
          (onlineVal (updated.getD j defaultUser)) = true) :
    firstCycle users = .ok (users.map (fun u =>
      ⟨u, if (onlineVal u).truthy then TransitionKind.initialOnline
          else TransitionKind.initialOffline⟩)) ∧
    updateCycle users updated = .ok (users, []) := by
  have hcore : ∀ j ∈ List.range updated.length, ∀ su uu,
      users[j]? = Option.some su → updated[j]? = Option.some uu →
      (onlineVal su).pyEq (onlineVal uu) = true := by
    intro j hj su uu hju hjp
    have hjlt : j < updated.length := List.mem_range.mp hj
    have e1 : users.getD j defaultUser = su := getD_of_getElem? hju
    have e2 : updated.getD j defaultUser = uu := getD_of_getElem? hjp
    rw [← e1, ← e2]
    exact hsame j hjlt
  have hcoreQ : ∀ j ∈ List.range updated.length, ∀ su uu,
      users.get? j = Option.some su → updated.get? j = Option.some uu →
      (onlineVal su).pyEq (onlineVal uu) = true := by
    intro j hj su uu hju hjp
    refine hcore j hj su uu ?_ ?_
    · rw [← List.get?_eq_getElem?]
      exact hju
    · rw [← List.get?_eq_getElem?]
      exact hjp
  constructor
  · apply firstCycle_spec
    intro u hu
    obtain ⟨ho, hf, hl⟩ := h1 u hu
    obtain ⟨v, hv⟩ := Option.isSome_iff_exists.mp ho
    refine ⟨v, hv, hf, fun hv2 => hl ?_⟩
    rwa [onlineVal_eq hv]
  · unfold updateCycle
    rw [updateLoop_spec updated (List.range updated.length) users
      (fun j hj => ⟨by rw [hlen]; exact List.mem_range.mp hj,
        List.mem_range.mp hj⟩)
      (fun u hu => (h1 u hu).1) h3 (List.nodup_range _)
      (fun j hj su uu a b c => by
        have hT := hcore j hj su uu a b
        rw [c] at hT
        cases hT)]
    rw [storedAfterLoop_id updated (List.range updated.length) users hcoreQ,
      cycleEventsOn_quiet users updated (List.range updated.length) hcoreQ]

/-- Witness for C2: two users, first acquisition followed by an identical
acquisition. -/
theorem C2_witness :
    firstCycle [annaOnline, bertOffline] =
      .ok [⟨annaOnline, .initialOnline⟩, ⟨bertOffline, .initialOffline⟩] ∧
    updateCycle [annaOnline, bertOffline] [annaOnline, bertOffline] =
      .ok ([annaOnline, bertOffline], []) := by
  have h := C2_first_acquisition_and_quiescence [annaOnline, bertOffline]
    [annaOnline, bertOffline] (by decide) (by decide) (by decide)
    (by decide) (by decide)
  exact ⟨h.1, h.2⟩

/-- C3 counterexample: the tracker's transition detection is positional, not
keyed by user_id.  Two runs whose acquisitions contain exactly the same
per-user snapshots — the second acquisition of run B is a permutation of the
second acquisition of run A — produce different outcomes: run A (same order)
emits the two initial notifications and nothing else, while run B (swapped
order) aborts with the `NameError` raised from the positionally detected
spurious went-offline transition. -/
theorem C3_counterexample :
    [bertOffline, annaOnline].Perm [annaOnline, bertOffline] ∧
    loop_update_status [annaOnline, bertOffline]
        [[annaOnline, bertOffline]] =
      .ok [⟨annaOnline, .initialOnline⟩, ⟨bertOffline, .initialOffline⟩] ∧
    loop_update_status [annaOnline, bertOffline]
        [[bertOffline, annaOnline]] =
      .error (.nameError "format_usre_went_offline") :=
  ⟨by decide, by decide, by decide⟩

/-- C3 (amended): transition detection is keyed by index into the returned
list.  Whenever every positionally detected transition is one whose sink
call succeeds (a transition to online with a first name present — a
went-offline sink call aborts on the `NameError` of C1), the subsequent
acquisition cycle succeeds, replaces the stored entries exactly at the
mismatching indices, and invokes the sink exactly once per index at which
the stored online flag differs from the freshly returned flag at the same
index, in index order, with the freshly returned user. -/
theorem C3_positional_detection (stored updated : List User)
    (hlen : stored.length = updated.length)
    (hs : ∀ u ∈ stored, (u.lookup .online).isSome)
    (hup : ∀ u ∈ updated, (u.lookup .online).isSome)
    (hok : ∀ j, j < updated.length →
        (onlineVal (stored.getD j defaultUser)).pyEq
          (onlineVal (updated.getD j defaultUser)) = false →
        (onlineVal (updated.getD j defaultUser)).truthy = true ∧
        ((updated.getD j defaultUser).lookup .first_name).isSome) :
    updateCycle stored updated =
      .ok (storedAfterLoop stored updated (List.range updated.length),
           cycleEvents stored updated) := by
  unfold updateCycle cycleEvents
  apply updateLoop_spec
  · intro j hj
    exact ⟨by rw [hlen]; exact List.mem_range.mp hj, List.mem_range.mp hj⟩
  · exact hs
  · exact hup
  · exact List.nodup_range _
  · intro j hj su uu hju hjp hne
    have hjlt : j < updated.length := List.mem_range.mp hj
    have e1 : stored.getD j defaultUser = su := getD_of_getElem? hju
    have e2 : updated.getD j defaultUser = uu := getD_of_getElem? hjp
    have hres := hok j hjlt (by rw [e1, e2]; exact hne)
    rwa [e2] at hres

/-- Witness for C3 (amended): a single user whose stored flag is offline and
freshly returned flag is online. -/
theorem C3_witness :
    updateCycle [bertOffline] [bertOnline] =
      .ok (storedAfterLoop [bertOffline] [bertOnline] (List.range 1),
           cycleEvents [bertOffline] [bertOnline]) :=
  C3_positional_detection [bertOffline] [bertOnline] (by decide) (by decide)
    (by decide) (by decide)

/-- C5: on a subsequent acquisition, a user whose freshly returned online
flag equals the stored one (a NoChange self-loop) keeps its stored snapshot
unchanged, and — the returned users carrying pairwise distinct UIDs — no
sink invocation of that cycle carries that user's UID. -/
theorem C5_nochange_frame (stored updated : List User) (i0 : Nat)
    (hlen : stored.length = updated.length)
    (hinj : ∀ j, j < updated.length → ∀ k, k < updated.length →
        (updated.getD j defaultUser).lookup .uid =
          (updated.getD k defaultUser).lookup .uid → j = k)
    (hi0 : i0 < updated.length)
    (heq : (onlineVal (stored.getD i0 defaultUser)).pyEq
        (onlineVal (updated.getD i0 defaultUser)) = true)
    (st : List User) (evs : List Event)
    (hrun : updateCycle stored updated = .ok (st, evs)) :
    st.get? i0 = stored.get? i0 ∧
    ∀ e ∈ evs, e.user.lookup .uid ≠
      (updated.getD i0 defaultUser).lookup .uid := by
  have hi0s : i0 < stored.length := by rw [hlen]; exact hi0
  have hsu : stored.get? i0 = Option.some (stored.get ⟨i0, hi0s⟩) :=
    List.get?_eq_get hi0s
  have huu : updated.get? i0 = Option.some (updated.get ⟨i0, hi0⟩) :=
    List.get?_eq_get hi0
  have egS : stored.getD i0 defaultUser = stored.get ⟨i0, hi0s⟩ :=
    getD_of_get? hsu
  have egU : updated.getD i0 defaultUser = updated.get ⟨i0, hi0⟩ :=
    getD_of_get? huu
  have heq2 : (onlineVal (stored.get ⟨i0, hi0s⟩)).pyEq
      (onlineVal (updated.get ⟨i0, hi0⟩)) = true := by
    rw [← egS, ← egU]
    exact heq
  obtain ⟨h1, h2⟩ := updateLoop_inv updated (List.range updated.length)
    stored st evs (List.nodup_range _) hrun
  constructor
  · rw [h1,
      storedAfterLoop_frame updated i0 (List.range updated.length) stored
        (stored.get ⟨i0, hi0s⟩) (updated.get ⟨i0, hi0⟩) hsu huu heq2, hsu]
  · intro e he hc
    rw [h2] at he
    obtain ⟨j, hj, su, uu, hsj, huj, hne, heu⟩ := cycleEventsOn_user_spec he
    have hjlt : j < updated.length := List.mem_range.mp hj
    have e2 : updated.getD j defaultUser = uu := getD_of_get? huj
    have hji0 : j = i0 := by
      refine hinj j hjlt i0 hi0 ?_
      rw [e2, ← heu]
      exact hc
    subst hji0
    have hsame : su = stored.get ⟨j, hi0s⟩ :=
      Option.some.inj (hsj.symm.trans hsu)
    have husame : uu = updated.get ⟨j, hi0⟩ :=
      Option.some.inj (huj.symm.trans huu)
    rw [hsame, husame] at hne
    rw [hne] at heq2
    cases heq2

/-- Witness for C5: the user at index 0 keeps its flag while the user at
index 1 goes online. -/
theorem C5_witness :
    ([annaOnline, bertOnline] : List User).get? 0 =
      ([annaOnline, bertOffline] : List User).get? 0 ∧
    ∀ e ∈ [(⟨bertOnline, .wentOnline⟩ : Event)], e.user.lookup .uid ≠
      (([annaOnline, bertOnline] : List User).getD 0 defaultUser).lookup
        .uid :=
  C5_nochange_frame [annaOnline, bertOffline] [annaOnline, bertOnline] 0
    (by decide) (by decide) (by decide) (by decide)
    [annaOnline, bertOnline] [⟨bertOnline, .wentOnline⟩] (by decide)

end VkScripts
